import Mathlib

/-!
Verification development for the World Bank PAD Analyzer repository.

The repository ships three frontend source files (`src/App.tsx` with the
`SingleEntryForm` component, `src/components/generation/BulkGenerationForm.tsx`,
and a README); the backend RAG pipeline (extractor, chunker, embedding index,
retriever, generation orchestrator) lives in an `api/` directory that is not
part of the shipped sources.  Frontend handlers are embedded directly from the
TSX code; pipeline components are modelled from the specification, as flagged in
each definition's doc comment.
-/

namespace WBG

/-! ## JavaScript numeric parsing, embedded from the browser semantics used by
`BulkGenerationForm.tsx` line 139: `parseInt(e.target.value) || 0`. -/

/-- Value of a character as a digit under the given radix, as in JS `parseInt`:
decimal digits, then letters `a`-`z` / `A`-`Z` for values 10..35; `none` when
the character is not a digit of that radix. -/
def digitValue (radix : Nat) (c : Char) : Option Nat :=
  let v : Nat :=
    if '0' ≤ c ∧ c ≤ '9' then c.toNat - '0'.toNat
    else if 'a' ≤ c ∧ c ≤ 'z' then c.toNat - 'a'.toNat + 10
    else if 'A' ≤ c ∧ c ≤ 'Z' then c.toNat - 'A'.toNat + 10
    else radix
  if v < radix then some v else none

/-- Longest digit-prefix accumulator for JS `parseInt`: consumes characters
while they are digits of the radix, starting from an optional already-parsed
value; `none` means no digit has been consumed yet (JS `NaN`). -/
def parseDigits (radix : Nat) : List Char → Option Nat → Option Nat
  | [], acc => acc
  | c :: cs, acc =>
    match digitValue radix c with
    | some d => parseDigits radix cs (some (acc.getD 0 * radix + d))
    | none => acc

/-- Embedding of JavaScript `parseInt(s)` (radix argument omitted): skip leading
whitespace, read an optional sign, detect a `0x`/`0X` hexadecimal prefix
(otherwise radix 10), then parse the longest digit prefix; `none` models `NaN`.
Whitespace is modelled by `Char.isWhitespace`. -/
def parseIntJS (s : String) : Option Int :=
  let cs := s.toList.dropWhile Char.isWhitespace
  let signed : Int × List Char :=
    match cs with
    | '-' :: t => (-1, t)
    | '+' :: t => (1, t)
    | t => (1, t)
  let based : Nat × List Char :=
    match signed.2 with
    | '0' :: 'x' :: t => (16, t)
    | '0' :: 'X' :: t => (16, t)
    | t => (10, t)
  match parseDigits based.1 based.2 none with
  | some n => some (signed.1 * (n : Int))
  | none => none

/-- Embedding of the `queryLimit` change handler of `BulkGenerationForm.tsx`
line 139, `setQueryLimit(parseInt(e.target.value) || 0)`: JS `||` yields the
right operand when the left is falsy, and both `NaN` and `0` are falsy, so a
failed parse or a parsed `0` store `0` and any other parsed value is stored
unchanged. -/
def queryLimitOnChange (s : String) : Int :=
  match parseIntJS s with
  | some v => if v = 0 then 0 else v
  | none => 0

/-! ## Form submit handlers, embedded from the TSX sources.  An invocation's
observable effect is the list of alerts shown (each `alert(...); return` branch
contributes one) together with the argument tuple passed to `onGenerate`, when
it is called. -/

/-- Embedding of `handleGenerate` of `BulkGenerationForm.tsx` lines 47-59.
`F` abstracts the browser `File` type; a `File` object is never falsy in JS, so
the `!excelFile` / `!pdfFile` guards test exactly for `null`.  Returns the
alerts shown and the `onGenerate(excelFile, pdfFile, queryLimit, selectedModel)`
argument tuple when the callback fires. -/
def BulkGenerationForm.handleGenerate (F : Type) (excelFile pdfFile : Option F)
    (queryLimit : Int) (selectedModel : String) :
    List String × Option (F × F × Int × String) :=
  match excelFile with
  | none => (["Please upload an Excel file"], none)
  | some ef =>
    match pdfFile with
    | none => (["Please upload a PDF file"], none)
    | some pf => ([], some (ef, pf, queryLimit, selectedModel))

/-- Embedding of JavaScript `s.trim()` as a character list: leading and
trailing whitespace removed. -/
def trimJS (s : String) : List Char :=
  ((s.toList.dropWhile Char.isWhitespace).reverse.dropWhile Char.isWhitespace).reverse

/-- Embedding of `handleGenerate` of the `SingleEntryForm` component in
`src/App.tsx` lines 104-121.  JS `!activity.trim()` is true exactly when the
trimmed string is empty; checks run in source order, each failing check alerts
once and returns. -/
def SingleEntryForm.handleGenerate (F : Type) (activity definition : String)
    (file : Option F) (selectedModel : String) :
    List String × Option (String × String × F × String) :=
  if trimJS activity = [] then (["Please enter an activity name"], none)
  else if trimJS definition = [] then (["Please enter a definition"], none)
  else
    match file with
    | none => (["Please upload a PDF file"], none)
    | some f => ([], some (activity, definition, f, selectedModel))

/-! ## Chunker.  Modelled from the spec: the backend Chunker (`api/process_pdf.py`)
is not among the shipped sources. -/

/-- Error raised by the Chunker only for the degenerate configuration
`overlapChars ≥ maxChunkChars`. -/
inductive ChunkingError where
  | degenerateConfig
deriving DecidableEq

/-- One splitting step budget-bounded recursion: `fuel` bounds the number of
chunks still producible.  Structural in `fuel` so that concrete runs evaluate
inside the kernel. -/
def chunkPageGo (maxC ov : Nat) : Nat → List Char → List (List Char)
  | 0, _ => []
  | fuel + 1, text =>
    if maxC ≤ ov then []
    else if text.length ≤ maxC then (if text = [] then [] else [text])
    else text.take maxC :: chunkPageGo maxC ov fuel (text.drop (maxC - ov))

/-- Modelled from the spec: the backend Chunker splits one page's text into
spans of at most `maxC` characters, each chunk after the first beginning `ov`
characters before the previous chunk's end.  The spec lets the cut point prefer
a nearby whitespace boundary with a hard cut as fallback; the model takes the
hard cut.  A fuel of `text.length` always suffices, since every step consumes
at least one character net when `ov < maxC`; the degenerate configuration
`maxC ≤ ov` yields no chunks here and is rejected with `ChunkingError` by
`chunkDocument` before this runs. -/
def chunkPage (maxC ov : Nat) (text : List Char) : List (List Char) :=
  chunkPageGo maxC ov text.length text

/-- Modelled from the spec: chunk every page of a document in page order,
tagging each chunk with its zero-based page number (chunks never span two
pages).  `i` is the page number of the first page of `ps`. -/
def chunkPages (maxC ov : Nat) : Nat → List (List Char) → List (Nat × List Char)
  | _, [] => []
  | i, p :: ps => (chunkPage maxC ov p).map (fun c => (i, c)) ++ chunkPages maxC ov (i + 1) ps

/-- Modelled from the spec: `chunk(document, maxChunkChars, overlapChars)`
fails with `ChunkingError` exactly when `overlapChars ≥ maxChunkChars` and
otherwise chunks each page independently. -/
def chunkDocument (maxC ov : Nat) (pages : List (List Char)) :
    Except ChunkingError (List (Nat × List Char)) :=
  if maxC ≤ ov then .error .degenerateConfig
  else .ok (chunkPages maxC ov 0 pages)

/-- Reassembly of a chunk sequence: the first chunk whole, every later chunk
with the configured overlap removed from its front. -/
def reassemble (ov : Nat) : List (List Char) → List Char
  | [] => []
  | c :: cs => c ++ (cs.map (List.drop ov)).flatten

theorem chunkPageGo_drop_flatten (maxC ov : Nat) (h : ov < maxC) :
    ∀ (fuel : Nat) (text : List Char), text.length ≤ fuel →
    ((chunkPageGo maxC ov fuel text).map (List.drop ov)).flatten = text.drop ov := by
  intro fuel
  induction fuel with
  | zero =>
    intro text hf
    have hnil : text = [] := List.length_eq_zero.mp (Nat.le_zero.mp hf)
    subst hnil
    simp [chunkPageGo]
  | succ fuel ih =>
    intro text hf
    rw [chunkPageGo, if_neg (by omega)]
    by_cases hlen : text.length ≤ maxC
    · rw [if_pos hlen]
      by_cases hnil : text = []
      · simp [hnil]
      · simp [hnil]
    · rw [if_neg hlen]
      simp only [List.map_cons, List.flatten_cons]
      rw [ih (text.drop (maxC - ov)) (by rw [List.length_drop]; omega)]
      rw [List.drop_drop, List.drop_take]
      conv_rhs => rw [← List.take_append_drop (maxC - ov) (text.drop ov)]
      rw [List.drop_drop]
      congr 2
      omega

theorem chunkPage_drop_flatten (maxC ov : Nat) (h : ov < maxC) (text : List Char) :
    ((chunkPage maxC ov text).map (List.drop ov)).flatten = text.drop ov :=
  chunkPageGo_drop_flatten maxC ov h text.length text le_rfl

theorem chunkPageGo_reassemble (maxC ov : Nat) (h : ov < maxC) (fuel : Nat)
    (text : List Char) (hf : text.length ≤ fuel) :
    reassemble ov (chunkPageGo maxC ov fuel text) = text := by
  cases fuel with
  | zero =>
    have hnil : text = [] := List.length_eq_zero.mp (Nat.le_zero.mp hf)
    subst hnil
    simp [chunkPageGo, reassemble]
  | succ fuel =>
    rw [chunkPageGo, if_neg (by omega)]
    by_cases hlen : text.length ≤ maxC
    · rw [if_pos hlen]
      by_cases hnil : text = []
      · simp [hnil, reassemble]
      · simp [hnil, reassemble]
    · rw [if_neg hlen]
      show text.take maxC ++ _ = text
      rw [chunkPageGo_drop_flatten maxC ov h fuel _ (by rw [List.length_drop]; omega)]
      rw [List.drop_drop]
      have harith : maxC - ov + ov = maxC := by omega
      rw [harith, List.take_append_drop]

theorem chunkPage_reassemble (maxC ov : Nat) (h : ov < maxC) (text : List Char) :
    reassemble ov (chunkPage maxC ov text) = text :=
  chunkPageGo_reassemble maxC ov h text.length text le_rfl

theorem chunkPageGo_ne_nil (maxC ov : Nat) :
    ∀ (fuel : Nat) (text : List Char), ∀ c ∈ chunkPageGo maxC ov fuel text, c ≠ [] := by
  intro fuel
  induction fuel with
  | zero =>
    intro text c hc
    simp [chunkPageGo] at hc
  | succ fuel ih =>
    intro text c hc
    rw [chunkPageGo] at hc
    by_cases hdeg : maxC ≤ ov
    · rw [if_pos hdeg] at hc
      simp at hc
    · rw [if_neg hdeg] at hc
      by_cases hlen : text.length ≤ maxC
      · rw [if_pos hlen] at hc
        by_cases hnil : text = []
        · simp [hnil] at hc
        · rw [if_neg hnil] at hc
          rcases List.mem_singleton.mp hc with rfl
          exact hnil
      · rw [if_neg hlen] at hc
        rcases List.mem_cons.mp hc with rfl | hc
        · intro hfalse
          have hlen0 : (List.take maxC text).length = 0 := by rw [hfalse]; rfl
          rw [List.length_take] at hlen0
          omega
        · exact ih (text.drop (maxC - ov)) c hc

theorem chunkPage_ne_nil (maxC ov : Nat) (text : List Char) :
    ∀ c ∈ chunkPage maxC ov text, c ≠ [] :=
  chunkPageGo_ne_nil maxC ov text.length text

theorem chunkPageGo_within_page (maxC ov : Nat) :
    ∀ (fuel : Nat) (text : List Char), ∀ c ∈ chunkPageGo maxC ov fuel text,
      ∃ pre post, pre ++ c ++ post = text := by
  intro fuel
  induction fuel with
  | zero =>
    intro text c hc
    simp [chunkPageGo] at hc
  | succ fuel ih =>
    intro text c hc
    rw [chunkPageGo] at hc
    by_cases hdeg : maxC ≤ ov
    · rw [if_pos hdeg] at hc
      simp at hc
    · rw [if_neg hdeg] at hc
      by_cases hlen : text.length ≤ maxC
      · rw [if_pos hlen] at hc
        by_cases hnil : text = []
        · simp [hnil] at hc
        · rw [if_neg hnil] at hc
          rcases List.mem_singleton.mp hc with rfl
          exact ⟨[], [], by simp⟩
      · rw [if_neg hlen] at hc
        rcases List.mem_cons.mp hc with rfl | hc
        · exact ⟨[], text.drop maxC, by simp [List.take_append_drop]⟩
        · obtain ⟨pre, post, hpp⟩ := ih (text.drop (maxC - ov)) c hc
          refine ⟨text.take (maxC - ov) ++ pre, post, ?_⟩
          have hassoc : text.take (maxC - ov) ++ pre ++ c ++ post
              = text.take (maxC - ov) ++ (pre ++ c ++ post) := by
            simp [List.append_assoc]
          rw [hassoc, hpp, List.take_append_drop]

theorem chunkPage_within_page (maxC ov : Nat) (text : List Char) :
    ∀ c ∈ chunkPage maxC ov text, ∃ pre post, pre ++ c ++ post = text :=
  chunkPageGo_within_page maxC ov text.length text

theorem mem_chunkPages (maxC ov : Nat) (pages : List (List Char)) (i : Nat)
    (pc : Nat × List Char) (hmem : pc ∈ chunkPages maxC ov i pages) :
    ∃ j p, pages.get? j = some p ∧ pc.1 = i + j ∧ pc.2 ∈ chunkPage maxC ov p := by
  induction pages generalizing i with
  | nil => simp [chunkPages] at hmem
  | cons p ps ihp =>
    rw [chunkPages] at hmem
    rcases List.mem_append.mp hmem with hmem | hmem
    · obtain ⟨c, hc, rfl⟩ := List.mem_map.mp hmem
      exact ⟨0, p, by simp, by simp, hc⟩
    · obtain ⟨j, q, hq, hfst, hsnd⟩ := ihp (i + 1) hmem
      exact ⟨j + 1, q, by simpa using hq, by omega, hsnd⟩

/-! ## Embedding Index and Retriever.  Modelled from the spec: the backend
FAISS-based vector store and retriever (`api/process_pdf.py`) are not among the
shipped sources.  Similarity scores are real-valued; they are modelled over `ℚ`
with inner-product similarity, consistently for build and query. -/

/-- Embedding vector. -/
abbrev Vec := List ℚ

/-- Inner-product similarity between two vectors (missing coordinates count
as zero). -/
def dotProduct : Vec → Vec → ℚ
  | [], _ => 0
  | _, [] => 0
  | a :: as_, b :: bs => a * b + dotProduct as_ bs

/-- One stored chunk embedding inside an Index. -/
structure IndexEntry where
  chunkId : Nat
  page : Nat
  text : List Char
  vec : Vec
deriving DecidableEq

/-- Modelled from the spec: a per-document collection of chunk embeddings,
tagged with the embedding model used to build it. -/
structure Index where
  docId : Nat
  embedModelId : String
  entries : List IndexEntry
deriving DecidableEq

/-- One retrieval result: a chunk reference with its similarity score. -/
structure Scored where
  chunkId : Nat
  page : Nat
  text : List Char
  score : ℚ
deriving DecidableEq

/-- Descending-score ordering on scored results. -/
def scoreGe (a b : Scored) : Prop := b.score ≤ a.score

instance : DecidableRel scoreGe := fun a b =>
  inferInstanceAs (Decidable (b.score ≤ a.score))

instance : IsTotal Scored scoreGe := ⟨fun a b => le_total b.score a.score⟩

instance : IsTrans Scored scoreGe := ⟨fun _ _ _ hab hbc => le_trans hbc hab⟩

/-- Stable sort of scored results, descending by score. -/
def sortByScore (l : List Scored) : List Scored := l.insertionSort scoreGe

/-- Deduplication by chunk identifier, keeping the first (highest-ranked)
occurrence; `seen` holds the chunk identifiers already emitted. -/
def dedupeByChunkId (seen : List Nat) : List Scored → List Scored
  | [] => []
  | r :: rs =>
    if r.chunkId ∈ seen then dedupeByChunkId seen rs
    else r :: dedupeByChunkId (r.chunkId :: seen) rs

/-- Modelled from the spec: rank scored candidates by sorting descending,
filtering out scores below `minScore` BEFORE truncating to `topK`, and
deduplicating by chunk identifier. -/
def rankResults (l : List Scored) (topK : Nat) (minScore : ℚ) : List Scored :=
  (dedupeByChunkId [] ((sortByScore l).filter (fun r => minScore ≤ r.score))).take topK

/-- Score every entry of an index against a query vector. -/
def scoreEntries (idx : Index) (qv : Vec) : List Scored :=
  idx.entries.map (fun e => ⟨e.chunkId, e.page, e.text, dotProduct qv e.vec⟩)

/-- Modelled from the spec: `search(index, queryVector, topK)` returns the
`topK` best-scoring entries, descending; an empty index yields an empty
result, never an error. -/
def Index.search (idx : Index) (qv : Vec) (topK : Nat) : List Scored :=
  (sortByScore (scoreEntries idx qv)).take topK

/-- A query embedding together with the identifier of the embedding model that
produced it. -/
structure TaggedQuery where
  modelId : String
  vec : Vec

/-- Retriever failure: the query was embedded with a different model than the
index. -/
inductive RetrieveError where
  | embeddingMismatchError
deriving DecidableEq

/-- Modelled from the spec: `retrieve(index, query, topK, minScore)` rejects a
query embedded with a model other than the index's with
`EmbeddingMismatchError`, and otherwise filters below `minScore` before
truncating to `topK`, deduplicated by chunk identifier, descending by score. -/
def retrieve (idx : Index) (q : TaggedQuery) (topK : Nat) (minScore : ℚ) :
    Except RetrieveError (List Scored) :=
  if q.modelId = idx.embedModelId then
    .ok (rankResults (scoreEntries idx q.vec) topK minScore)
  else .error .embeddingMismatchError

theorem dedupeByChunkId_sublist (seen : List Nat) (l : List Scored) :
    (dedupeByChunkId seen l).Sublist l := by
  induction l generalizing seen with
  | nil => simp [dedupeByChunkId]
  | cons r rs ih =>
    rw [dedupeByChunkId]
    by_cases hmem : r.chunkId ∈ seen
    · rw [if_pos hmem]
      exact (ih seen).trans (List.sublist_cons_self r rs)
    · rw [if_neg hmem]
      exact List.Sublist.cons₂ r (ih (r.chunkId :: seen))

theorem dedupeByChunkId_not_seen (seen : List Nat) (l : List Scored) :
    ∀ r ∈ dedupeByChunkId seen l, r.chunkId ∉ seen := by
  induction l generalizing seen with
  | nil => simp [dedupeByChunkId]
  | cons r rs ih =>
    rw [dedupeByChunkId]
    by_cases hmem : r.chunkId ∈ seen
    · rw [if_pos hmem]
      exact ih seen
    · rw [if_neg hmem]
      intro x hx
      rcases List.mem_cons.mp hx with rfl | hx
      · exact hmem
      · intro hxs
        exact ih (r.chunkId :: seen) x hx (List.mem_cons_of_mem _ hxs)

theorem dedupeByChunkId_nodup_keys (seen : List Nat) (l : List Scored) :
    List.Pairwise (fun a b => a.chunkId ≠ b.chunkId) (dedupeByChunkId seen l) := by
  induction l generalizing seen with
  | nil => simp [dedupeByChunkId]
  | cons r rs ih =>
    rw [dedupeByChunkId]
    by_cases hmem : r.chunkId ∈ seen
    · rw [if_pos hmem]
      exact ih seen
    · rw [if_neg hmem]
      refine List.Pairwise.cons ?_ (ih (r.chunkId :: seen))
      intro x hx heq
      exact dedupeByChunkId_not_seen _ _ x hx (heq ▸ List.mem_cons_self _ _)

theorem rankResults_sublist_sorted (l : List Scored) (topK : Nat) (minScore : ℚ) :
    (rankResults l topK minScore).Sublist (sortByScore l) := by
  refine ((List.take_sublist _ _).trans (dedupeByChunkId_sublist _ _)).trans ?_
  exact List.filter_sublist _

theorem rankResults_length_le (l : List Scored) (topK : Nat) (minScore : ℚ) :
    (rankResults l topK minScore).length ≤ topK := by
  rw [rankResults, List.length_take]
  exact min_le_left _ _

theorem rankResults_minScore (l : List Scored) (topK : Nat) (minScore : ℚ) :
    ∀ r ∈ rankResults l topK minScore, minScore ≤ r.score := by
  intro r hr
  have hf : r ∈ (sortByScore l).filter (fun r => minScore ≤ r.score) :=
    ((List.take_sublist _ _).trans (dedupeByChunkId_sublist _ _)).subset hr
  simpa using List.of_mem_filter hf

theorem rankResults_nodup (l : List Scored) (topK : Nat) (minScore : ℚ) :
    List.Pairwise (fun a b => a.chunkId ≠ b.chunkId) (rankResults l topK minScore) :=
  List.Pairwise.sublist (List.take_sublist _ _) (dedupeByChunkId_nodup_keys [] _)

theorem rankResults_sorted (l : List Scored) (topK : Nat) (minScore : ℚ) :
    List.Pairwise (fun a b => b.score ≤ a.score) (rankResults l topK minScore) :=
  List.Pairwise.sublist (rankResults_sublist_sorted l topK minScore)
    (List.sorted_insertionSort scoreGe l)

/-! ## Index build.  Modelled from the spec: `build(chunks)` embeds every chunk
through the external embedding model and publishes the index only when every
embedding call succeeded (all-or-nothing). -/

/-- A chunk as produced by the Chunker, before embedding. -/
structure Chunk where
  id : Nat
  docId : Nat
  seqIndex : Nat
  page : Nat
  text : List Char
deriving DecidableEq

/-- Index build failure: some chunk's embedding call failed. -/
inductive BuildError where
  | indexBuildError (msg : String)
deriving DecidableEq

/-- Modelled from the spec: embed chunks one by one through the external
embedder; the first failing call fails the whole traversal. -/
def embedChunks (embed : Chunk → Except String Vec) :
    List Chunk → Except String (List IndexEntry)
  | [] => .ok []
  | c :: cs =>
    match embed c with
    | .error e => .error e
    | .ok v =>
      match embedChunks embed cs with
      | .error e => .error e
      | .ok rest => .ok (⟨c.id, c.page, c.text, v⟩ :: rest)

/-- Modelled from the spec: `build(chunks)` produces a complete index tagged
with the embedding model identifier, or fails with `IndexBuildError` when any
chunk's embedding call fails. -/
def buildIndex (embed : Chunk → Except String Vec) (docId : Nat)
    (embedModelId : String) (chunks : List Chunk) : Except BuildError Index :=
  match embedChunks embed chunks with
  | .error e => .error (.indexBuildError e)
  | .ok entries => .ok ⟨docId, embedModelId, entries⟩

/-- The visible index store: document identifier to built index. -/
abbrev IndexStore := List (Nat × Index)

/-- Modelled from the spec: run a build and publish the resulting index into
the store keyed by document identifier; on failure the store is left exactly as
it was (no partial index becomes visible). -/
def publishBuild (store : IndexStore) (embed : Chunk → Except String Vec)
    (docId : Nat) (embedModelId : String) (chunks : List Chunk) :
    Except BuildError Unit × IndexStore :=
  match buildIndex embed docId embedModelId chunks with
  | .error e => (.error e, store)
  | .ok idx => (.ok (), (docId, idx) :: store)

/-- Search the store for a document: `none` when no index is visible for it. -/
def searchDoc (store : IndexStore) (docId : Nat) (qv : Vec) (topK : Nat) :
    Option (List Scored) :=
  (store.lookup docId).map (fun idx => idx.search qv topK)

theorem embedChunks_error (embed : Chunk → Except String Vec) (chunks : List Chunk)
    (hfail : ∃ c ∈ chunks, ∃ e, embed c = .error e) :
    ∃ e, embedChunks embed chunks = .error e := by
  induction chunks with
  | nil => simp at hfail
  | cons c cs ih =>
    rw [embedChunks]
    rcases hfail with ⟨c0, hc0, e0, he0⟩
    rcases List.mem_cons.mp hc0 with rfl | hc0
    · rw [he0]
      exact ⟨e0, rfl⟩
    · match hhead : embed c with
      | .error e => exact ⟨e, rfl⟩
      | .ok v =>
        obtain ⟨e, he⟩ := ih ⟨c0, hc0, e0, he0⟩
        rw [he]
        exact ⟨e, rfl⟩

/-! ## Generation Orchestrator.  Modelled from the spec: prompt assembly,
model dispatch with capability lookup, single-question answering and bulk runs
(`api/chat_api.py`, `api/generation_api.py`) are not among the shipped
sources.  External embedding/model services are injected as `Except`-valued
functions, and every external call the orchestrator issues is recorded in an
explicit call trace. -/

/-- One external (paid) call issued by the orchestrator. -/
inductive ExtCall where
  | embedQueryCall (query : List Char)
  | modelCall (modelId : String) (prompt : List Char)
deriving DecidableEq

/-- Orchestrator error taxonomy for answering. -/
inductive OrchError where
  | unknownModelError
  | notFoundError
  | embeddingMismatchError
  | modelError (msg : String)
deriving DecidableEq

/-- A grounded answer returned by the orchestrator. -/
structure Answer where
  text : List Char
  modelId : String
deriving DecidableEq

/-- The orchestrator's environment: the registry of recognized model
identifiers, the embedding model used at query time, the injected external
services, and retrieval parameters. -/
structure OrchEnv where
  knownModels : List String
  embedModelId : String
  embedQuery : List Char → Except String Vec
  callModel : String → List Char → Except String (List Char)
  topK : Nat
  minScore : ℚ

/-- Modelled from the spec: concatenate retrieved chunk texts in descending
score order, followed by the question, as the grounded prompt. -/
def buildPrompt (retrieved : List Scored) (question : List Char) : List Char :=
  (retrieved.map (fun r => r.text)).flatten ++ question

/-- Modelled from the spec: single-mode `answer(documentId, question, modelId)`.
Validates the model identifier against the registry BEFORE anything else (fail
fast with `UnknownModelError` and no external call), then requires a built
index (`NotFoundError`), embeds the question, retrieves, builds the grounded
prompt and calls the model; external-call failures map to `ModelError`.
Returns the outcome together with the trace of external calls issued. -/
def answer (env : OrchEnv) (store : IndexStore) (docId : Nat)
    (question : List Char) (modelId : String) :
    Except OrchError Answer × List ExtCall :=
  if modelId ∈ env.knownModels then
    match store.lookup docId with
    | none => (.error .notFoundError, [])
    | some idx =>
      match env.embedQuery question with
      | .error e => (.error (.modelError e), [.embedQueryCall question])
      | .ok qv =>
        match retrieve idx ⟨env.embedModelId, qv⟩ env.topK env.minScore with
        | .error _ => (.error .embeddingMismatchError, [.embedQueryCall question])
        | .ok retrieved =>
          let prompt := buildPrompt retrieved question
          match env.callModel modelId prompt with
          | .error e =>
            (.error (.modelError e), [.embedQueryCall question, .modelCall modelId prompt])
          | .ok text =>
            (.ok ⟨text, modelId⟩, [.embedQueryCall question, .modelCall modelId prompt])
  else (.error .unknownModelError, [])

/-- One bulk input row: an (activity, definition) pair. -/
abbrev Row := List Char × List Char

/-- The single-mode question derived from a bulk row. -/
def rowQuestion (r : Row) : List Char := r.1 ++ r.2

/-- Modelled from the spec: the bulk iteration skeleton.  Processes rows in
order; a remaining budget of `none` means unlimited, `some k` stops after `k`
rows. -/
def bulkLoop {ρ : Type} (f : Row → ρ) : List Row → Option Nat → List ρ
  | [], _ => []
  | r :: rs, none => f r :: bulkLoop f rs none
  | r :: rs, some (k + 1) => f r :: bulkLoop f rs (some k)
  | _ :: _, some 0 => []

/-- Modelled from the spec: `generateBulk(documentId, rows, modelId,
queryLimit)`.  Validates the model identifier first (fail fast, no external
call); then answers each row independently through the single-mode path, up to
`queryLimit` rows (`0` means unlimited), capturing each row's outcome — success
or error — in that row's slot of the result sequence.  Also returns the
concatenated external-call trace. -/
def generateBulk (env : OrchEnv) (store : IndexStore) (docId : Nat)
    (rows : List Row) (modelId : String) (queryLimit : Nat) :
    Except OrchError (List (Except OrchError Answer)) × List ExtCall :=
  if modelId ∈ env.knownModels then
    let runs := bulkLoop (fun r => answer env store docId (rowQuestion r) modelId)
      rows (if queryLimit = 0 then none else some queryLimit)
    (.ok (runs.map Prod.fst), (runs.map Prod.snd).flatten)
  else (.error .unknownModelError, [])

theorem bulkLoop_none {ρ : Type} (f : Row → ρ) (rows : List Row) :
    bulkLoop f rows none = rows.map f := by
  induction rows with
  | nil => rfl
  | cons r rs ih => rw [bulkLoop, ih, List.map_cons]

theorem bulkLoop_some {ρ : Type} (f : Row → ρ) (rows : List Row) (k : Nat) :
    bulkLoop f rows (some k) = (rows.take k).map f := by
  induction rows generalizing k with
  | nil => cases k <;> rfl
  | cons r rs ih =>
    cases k with
    | zero => rfl
    | succ k => rw [bulkLoop, ih, List.take_succ_cons, List.map_cons]

instance exceptDecEq {ε α : Type} [DecidableEq ε] [DecidableEq α] :
    DecidableEq (Except ε α) := fun x y =>
  match x, y with
  | .ok a, .ok b => if h : a = b then isTrue (by rw [h]) else isFalse (by simp [h])
  | .error a, .error b => if h : a = b then isTrue (by rw [h]) else isFalse (by simp [h])
  | .ok _, .error _ => isFalse (by simp)
  | .error _, .ok _ => isFalse (by simp)

theorem generateBulk_ok (env : OrchEnv) (store : IndexStore) (docId : Nat)
    (rows : List Row) (modelId : String) (queryLimit : Nat)
    (hm : modelId ∈ env.knownModels) :
    (generateBulk env store docId rows modelId queryLimit).1
      = .ok ((rows.take (if queryLimit = 0 then rows.length else queryLimit)).map
          (fun r => (answer env store docId (rowQuestion r) modelId).1)) := by
  rw [generateBulk, if_pos hm]
  by_cases h0 : queryLimit = 0
  · rw [if_pos h0, if_pos h0, bulkLoop_none, List.take_length]
    simp [Function.comp]
  · rw [if_neg h0, if_neg h0, bulkLoop_some]
    simp only [List.map_map]
    rfl

/-! ## Concrete fixtures used by the witnesses. -/

/-- Witness orchestrator environment: one known model, a trivial embedder, and
an external model that fails exactly on the prompt of the third witness row. -/
def envW : OrchEnv :=
  { knownModels := ["gpt-4.5"]
    embedModelId := "embed-1"
    embedQuery := fun _ => .ok [1]
    callModel := fun _ prompt => if prompt = ['c'] then .error "ModelError" else .ok prompt
    topK := 4
    minScore := 0 }

/-- Witness store: document 1 has a built (empty-entry) index tagged with the
same embedding model the environment uses. -/
def storeW : IndexStore := [(1, ⟨1, "embed-1", []⟩)]

/-- Witness bulk input: five rows with distinct single-character activities. -/
def rowsW : List Row :=
  [(['a'], []), (['b'], []), (['c'], []), (['d'], []), (['e'], [])]

/-! ## Claim theorems. -/

/-- C1: for every bulk generation run over an ordered sequence of rows with a
numeric `queryLimit`, exactly `min(len(rows), queryLimit)` rows are processed in
order when `queryLimit > 0`, and all rows are processed when `queryLimit = 0`
(unlimited); the run returns exactly that many results, one per processed row,
in row order. -/
theorem bulk_query_limit (env : OrchEnv) (store : IndexStore) (docId : Nat)
    (rows : List Row) (modelId : String) (queryLimit : Nat)
    (hm : modelId ∈ env.knownModels) :
    ∃ rs, (generateBulk env store docId rows modelId queryLimit).1 = .ok rs
      ∧ rs.length = (if queryLimit = 0 then rows.length else min rows.length queryLimit)
      ∧ rs = (rows.take (if queryLimit = 0 then rows.length else queryLimit)).map
          (fun r => (answer env store docId (rowQuestion r) modelId).1) := by
  refine ⟨_, generateBulk_ok env store docId rows modelId queryLimit hm, ?_, rfl⟩
  by_cases h0 : queryLimit = 0
  · simp [h0]
  · rw [if_neg h0, if_neg h0, List.length_map, List.length_take]
    exact Nat.min_comm _ _

/-- Witness for C1: over the five fixture rows, `queryLimit = 3` yields exactly
the first three rows' results and `queryLimit = 0` yields all five. -/
theorem bulk_query_limit_witness :
    (∃ rs, (generateBulk envW storeW 1 rowsW "gpt-4.5" 3).1 = .ok rs
      ∧ rs.length = (if (3 : Nat) = 0 then rowsW.length else min rowsW.length 3)
      ∧ rs = (rowsW.take (if (3 : Nat) = 0 then rowsW.length else 3)).map
          (fun r => (answer envW storeW 1 (rowQuestion r) "gpt-4.5").1))
  ∧ (∃ rs, (generateBulk envW storeW 1 rowsW "gpt-4.5" 0).1 = .ok rs
      ∧ rs.length = (if (0 : Nat) = 0 then rowsW.length else min rowsW.length 0)
      ∧ rs = (rowsW.take (if (0 : Nat) = 0 then rowsW.length else 0)).map
          (fun r => (answer envW storeW 1 (rowQuestion r) "gpt-4.5").1)) :=
  ⟨bulk_query_limit envW storeW 1 rowsW "gpt-4.5" 3 (by decide),
   bulk_query_limit envW storeW 1 rowsW "gpt-4.5" 0 (by decide)⟩

/-- C2: a bulk run returns exactly one entry per attempted row, each entry
being that row's own single-mode outcome (a successful `Answer` or that row's
captured error); a failure on one row never aborts the batch or changes another
row's entry, since entry `i` is a function of row `i` alone. -/
theorem bulk_partial_failure (env : OrchEnv) (store : IndexStore) (docId : Nat)
    (rows : List Row) (modelId : String) (queryLimit : Nat)
    (hm : modelId ∈ env.knownModels) :
    ∃ rs, (generateBulk env store docId rows modelId queryLimit).1 = .ok rs
      ∧ rs.length = (if queryLimit = 0 then rows.length else min rows.length queryLimit)
      ∧ ∀ (i : Nat) (h1 : i < rs.length) (h2 : i < rows.length),
          rs[i] = (answer env store docId (rowQuestion rows[i]) modelId).1 := by
  refine ⟨_, generateBulk_ok env store docId rows modelId queryLimit hm, ?_, ?_⟩
  · by_cases h0 : queryLimit = 0
    · simp [h0]
    · rw [if_neg h0, if_neg h0, List.length_map, List.length_take]
      exact Nat.min_comm _ _
  · intro i h1 h2
    rw [List.getElem_map, List.getElem_take]

/-- Witness for C2: on the five fixture rows, the external model fails exactly
on row 3; the run still returns five entries, row 3 a captured `ModelError` and
rows 1, 2, 4, 5 successful answers. -/
theorem bulk_partial_failure_witness :
    (∃ rs, (generateBulk envW storeW 1 rowsW "gpt-4.5" 0).1 = .ok rs
      ∧ rs.length = (if (0 : Nat) = 0 then rowsW.length else min rowsW.length 0)
      ∧ ∀ (i : Nat) (h1 : i < rs.length) (h2 : i < rowsW.length),
          rs[i] = (answer envW storeW 1 (rowQuestion rowsW[i]) "gpt-4.5").1)
  ∧ (generateBulk envW storeW 1 rowsW "gpt-4.5" 0).1
      = .ok [.ok ⟨['a'], "gpt-4.5"⟩, .ok ⟨['b'], "gpt-4.5"⟩,
             .error (.modelError "ModelError"),
             .ok ⟨['d'], "gpt-4.5"⟩, .ok ⟨['e'], "gpt-4.5"⟩] :=
  ⟨bulk_partial_failure envW storeW 1 rowsW "gpt-4.5" 0 (by decide), by decide⟩

/-- C3: index build is all-or-nothing: if any chunk's embedding call fails, the
build fails with `IndexBuildError`, the visible store is exactly unchanged, and
search for that document observes the same results as before the attempt — in
particular, when no index existed, none becomes visible. -/
theorem build_all_or_nothing (store : IndexStore) (embed : Chunk → Except String Vec)
    (docId : Nat) (embedModelId : String) (chunks : List Chunk)
    (hfail : ∃ c ∈ chunks, ∃ e, embed c = .error e) :
    (∃ e, (publishBuild store embed docId embedModelId chunks).1
        = .error (.indexBuildError e))
  ∧ (publishBuild store embed docId embedModelId chunks).2 = store
  ∧ (∀ qv topK, searchDoc (publishBuild store embed docId embedModelId chunks).2
        docId qv topK = searchDoc store docId qv topK)
  ∧ (store.lookup docId = none → ∀ qv topK,
      searchDoc (publishBuild store embed docId embedModelId chunks).2 docId qv topK
        = none) := by
  obtain ⟨e, he⟩ := embedChunks_error embed chunks hfail
  have hpb : publishBuild store embed docId embedModelId chunks
      = (.error (.indexBuildError e), store) := by
    rw [publishBuild, buildIndex, he]
  rw [hpb]
  refine ⟨⟨e, rfl⟩, rfl, fun qv topK => rfl, fun hnone qv topK => ?_⟩
  rw [searchDoc, hnone]
  rfl

/-- Witness for C3: building document 7 over three chunks whose second
embedding call fails leaves the (empty) store unchanged and no index visible. -/
theorem build_all_or_nothing_witness :
    (∃ e, (publishBuild [] (fun c => if c.id = 2 then .error "embedFail" else .ok [1])
        7 "embed-1" [⟨1, 7, 0, 0, ['x']⟩, ⟨2, 7, 1, 0, ['y']⟩, ⟨3, 7, 2, 0, ['z']⟩]).1
        = .error (.indexBuildError e))
  ∧ (publishBuild [] (fun c => if c.id = 2 then .error "embedFail" else .ok [1])
        7 "embed-1" [⟨1, 7, 0, 0, ['x']⟩, ⟨2, 7, 1, 0, ['y']⟩, ⟨3, 7, 2, 0, ['z']⟩]).2 = []
  ∧ (∀ qv topK, searchDoc (publishBuild []
        (fun c => if c.id = 2 then .error "embedFail" else .ok [1])
        7 "embed-1" [⟨1, 7, 0, 0, ['x']⟩, ⟨2, 7, 1, 0, ['y']⟩, ⟨3, 7, 2, 0, ['z']⟩]).2
        7 qv topK = searchDoc [] 7 qv topK)
  ∧ (List.lookup 7 ([] : IndexStore) = none → ∀ qv topK,
      searchDoc (publishBuild [] (fun c => if c.id = 2 then .error "embedFail" else .ok [1])
        7 "embed-1" [⟨1, 7, 0, 0, ['x']⟩, ⟨2, 7, 1, 0, ['y']⟩, ⟨3, 7, 2, 0, ['z']⟩]).2
        7 qv topK = none) :=
  build_all_or_nothing [] (fun c => if c.id = 2 then .error "embedFail" else .ok [1])
    7 "embed-1" [⟨1, 7, 0, 0, ['x']⟩, ⟨2, 7, 1, 0, ['y']⟩, ⟨3, 7, 2, 0, ['z']⟩]
    ⟨⟨2, 7, 1, 0, ['y']⟩, by decide, "embedFail", by decide⟩

/-- C4: a successful `retrieve(index, query, topK, minScore)` returns at most
`topK` results, none scoring below `minScore`, with no chunk identifier
repeated, ordered descending by score; its length equals `topK` capped by the
number of deduplicated candidates that survive the `minScore` filter, so
filtering happens before truncation to `topK`. -/
theorem retrieve_contract (idx : Index) (q : TaggedQuery) (topK : Nat)
    (minScore : ℚ) (res : List Scored)
    (hok : retrieve idx q topK minScore = .ok res) :
    res.length ≤ topK
  ∧ (∀ r ∈ res, minScore ≤ r.score)
  ∧ List.Pairwise (fun a b => a.chunkId ≠ b.chunkId) res
  ∧ List.Pairwise (fun a b => b.score ≤ a.score) res
  ∧ res.length = min topK (dedupeByChunkId []
      ((sortByScore (scoreEntries idx q.vec)).filter
        (fun r => minScore ≤ r.score))).length := by
  have hres : res = rankResults (scoreEntries idx q.vec) topK minScore := by
    rw [retrieve] at hok
    by_cases htag : q.modelId = idx.embedModelId
    · rw [if_pos htag] at hok
      exact (Except.ok.inj hok).symm
    · rw [if_neg htag] at hok
      exact absurd hok (by simp)
  subst hres
  refine ⟨rankResults_length_le _ _ _, rankResults_minScore _ _ _,
    rankResults_nodup _ _ _, rankResults_sorted _ _ _, ?_⟩
  rw [rankResults, List.length_take]

/-- Witness for C4: a three-entry index with a duplicated chunk identifier and
one below-threshold score retrieves exactly the two qualifying distinct chunks,
best first. -/
theorem retrieve_contract_witness :
    retrieve ⟨1, "embed-1", [⟨1, 0, ['x'], [1]⟩, ⟨2, 0, ['y'], [2]⟩, ⟨1, 0, ['x'], [3]⟩]⟩
        ⟨"embed-1", [1]⟩ 5 2 = .ok [⟨1, 0, ['x'], 3⟩, ⟨2, 0, ['y'], 2⟩]
  ∧ ((2 : Nat) ≤ 5
  ∧ (∀ r ∈ [(⟨1, 0, ['x'], 3⟩ : Scored), ⟨2, 0, ['y'], 2⟩], (2 : ℚ) ≤ r.score)) := by
  have hok : retrieve
      ⟨1, "embed-1", [⟨1, 0, ['x'], [1]⟩, ⟨2, 0, ['y'], [2]⟩, ⟨1, 0, ['x'], [3]⟩]⟩
      ⟨"embed-1", [1]⟩ 5 2 = .ok [⟨1, 0, ['x'], 3⟩, ⟨2, 0, ['y'], 2⟩] := by
    norm_num [retrieve, rankResults, sortByScore, scoreEntries, dedupeByChunkId,
      dotProduct, scoreGe, List.insertionSort, List.orderedInsert]
  have h := retrieve_contract
    ⟨1, "embed-1", [⟨1, 0, ['x'], [1]⟩, ⟨2, 0, ['y'], [2]⟩, ⟨1, 0, ['x'], [3]⟩]⟩
    ⟨"embed-1", [1]⟩ 5 2 [⟨1, 0, ['x'], 3⟩, ⟨2, 0, ['y'], 2⟩] hok
  exact ⟨hok, by norm_num, h.2.1⟩

/-- C5: for every page and every non-degenerate configuration
(`overlapChars < maxChunkChars`), reassembling the page's chunk sequence — the
first chunk whole, the configured overlap removed from every later chunk —
reproduces the page text exactly; no produced chunk is empty and every chunk
lies inside the single page it is tagged with (chunks never span two pages). -/
theorem chunker_lossless (maxC ov : Nat) (h : ov < maxC)
    (pages : List (List Char)) (chunks : List (Nat × List Char))
    (hok : chunkDocument maxC ov pages = .ok chunks) :
    (∀ p ∈ pages, reassemble ov (chunkPage maxC ov p) = p)
  ∧ ∀ pc ∈ chunks, pc.2 ≠ []
      ∧ ∃ p, pages.get? pc.1 = some p ∧ ∃ pre post, pre ++ pc.2 ++ post = p := by
  have hchunks : chunks = chunkPages maxC ov 0 pages := by
    rw [chunkDocument, if_neg (by omega)] at hok
    exact (Except.ok.inj hok).symm
  subst hchunks
  refine ⟨fun p _ => chunkPage_reassemble maxC ov h p, fun pc hpc => ?_⟩
  obtain ⟨j, p, hget, hfst, hmem⟩ := mem_chunkPages maxC ov pages 0 pc hpc
  refine ⟨chunkPage_ne_nil maxC ov p pc.2 hmem, p, ?_, chunkPage_within_page maxC ov p pc.2 hmem⟩
  rw [hfst]
  simpa using hget

/-- Witness for C5: page `abcde` with `maxChunkChars = 3`, `overlapChars = 1`
splits into `abc` and `cde`, which reassemble losslessly. -/
theorem chunker_lossless_witness :
    chunkDocument 3 1 [['a', 'b', 'c', 'd', 'e']]
      = .ok [(0, ['a', 'b', 'c']), (0, ['c', 'd', 'e'])]
  ∧ ((∀ p ∈ [['a', 'b', 'c', 'd', 'e']], reassemble 1 (chunkPage 3 1 p) = p)
  ∧ ∀ pc ∈ [((0 : Nat), ['a', 'b', 'c']), (0, ['c', 'd', 'e'])], pc.2 ≠ []
      ∧ ∃ p, [['a', 'b', 'c', 'd', 'e']].get? pc.1 = some p
        ∧ ∃ pre post, pre ++ pc.2 ++ post = p) :=
  ⟨by decide,
   chunker_lossless 3 1 (by decide) [['a', 'b', 'c', 'd', 'e']]
     [(0, ['a', 'b', 'c']), (0, ['c', 'd', 'e'])] (by decide)⟩

/-- C6: `search` on an empty index returns an empty result for every query
vector and every `topK` — by its total type it never signals an error — and in
general `search` returns at most `topK` results. -/
theorem search_empty_and_bounded :
    (∀ (docId : Nat) (tag : String) (qv : Vec) (topK : Nat),
        Index.search ⟨docId, tag, []⟩ qv topK = [])
  ∧ ∀ (idx : Index) (qv : Vec) (topK : Nat), (idx.search qv topK).length ≤ topK := by
  refine ⟨fun d t qv k => ?_, fun idx qv topK => ?_⟩
  · show (sortByScore (scoreEntries ⟨d, t, []⟩ qv)).take k = []
    rw [show scoreEntries ⟨d, t, []⟩ qv = [] from rfl]
    rw [show sortByScore [] = [] from rfl]
    exact List.take_nil
  · rw [Index.search, List.length_take]
    exact min_le_left _ _

/-- C7: a generation request whose model identifier the orchestrator does not
recognize fails with `UnknownModelError` with an empty external-call trace, in
both single and bulk mode: validation strictly precedes any external
(embedding or model) call. -/
theorem unknown_model_fails_fast (env : OrchEnv) (store : IndexStore) (docId : Nat)
    (question : List Char) (rows : List Row) (modelId : String) (queryLimit : Nat)
    (hm : modelId ∉ env.knownModels) :
    answer env store docId question modelId = (.error .unknownModelError, [])
  ∧ generateBulk env store docId rows modelId queryLimit
      = (.error .unknownModelError, []) := by
  constructor
  · rw [answer, if_neg hm]
  · rw [generateBulk, if_neg hm]

/-- Witness for C7: the fixture registry knows only `gpt-4.5`, so model
`bogus` fails fast with no external call in either mode. -/
theorem unknown_model_fails_fast_witness :
    answer envW storeW 1 ['q'] "bogus" = (.error .unknownModelError, [])
  ∧ generateBulk envW storeW 1 rowsW "bogus" 3 = (.error .unknownModelError, []) :=
  unknown_model_fails_fast envW storeW 1 ['q'] rowsW "bogus" 3 (by decide)

/-- C8: `BulkGenerationForm.handleGenerate` calls `onGenerate` exactly when
both the spreadsheet and the PDF file are selected; a missing spreadsheet
alerts for the Excel file, a missing PDF (with spreadsheet present) alerts for
the PDF file, and a successful call passes the current `excelFile`, `pdfFile`,
`queryLimit` and `selectedModel` unchanged. -/
theorem bulk_form_guard (F : Type) (excel pdf : Option F) (ql : Int) (model : String) :
    ((BulkGenerationForm.handleGenerate F excel pdf ql model).2.isSome
        ↔ excel.isSome ∧ pdf.isSome)
  ∧ (∀ e p, excel = some e → pdf = some p →
      BulkGenerationForm.handleGenerate F excel pdf ql model
        = ([], some (e, p, ql, model)))
  ∧ (excel = none →
      BulkGenerationForm.handleGenerate F excel pdf ql model
        = (["Please upload an Excel file"], none))
  ∧ (∀ e, excel = some e → pdf = none →
      BulkGenerationForm.handleGenerate F excel pdf ql model
        = (["Please upload a PDF file"], none)) := by
  cases excel <;> cases pdf <;>
    simp [BulkGenerationForm.handleGenerate]

/-- Witness for C8: with both files selected, the callback fires with the
exact current state. -/
theorem bulk_form_guard_witness :
    BulkGenerationForm.handleGenerate Nat (some 1) (some 2) 7 "gpt-4.5"
      = ([], some (1, 2, 7, "gpt-4.5")) :=
  (bulk_form_guard Nat (some 1) (some 2) 7 "gpt-4.5").2.1 1 2 rfl rfl

/-- C9: the stored `queryLimit` is always an integer, never `NaN`: the change
handler stores the parsed value when it is a nonzero number and `0` otherwise,
so an unparsable string (empty or non-numeric) becomes `0` — the interface's
unlimited — a parsed `0` stays `0`, and any other parsed value, including a
negative one, is stored unchanged. -/
theorem queryLimit_onChange_spec (s : String) :
    (parseIntJS s = none → queryLimitOnChange s = 0)
  ∧ (parseIntJS s = some 0 → queryLimitOnChange s = 0)
  ∧ (∀ v : Int, parseIntJS s = some v → v ≠ 0 → queryLimitOnChange s = v) := by
  refine ⟨fun hn => ?_, fun h0 => ?_, fun v hv hvne => ?_⟩
  · rw [queryLimitOnChange, hn]
  · rw [queryLimitOnChange, h0]
    simp
  · rw [queryLimitOnChange, hv]
    simp [hvne]

/-- Witness for C9: the typed value `-3` parses and is stored as-is, and the
empty and non-numeric inputs are stored as `0`. -/
theorem queryLimit_onChange_witness :
    queryLimitOnChange "-3" = -3
  ∧ queryLimitOnChange "" = 0
  ∧ queryLimitOnChange "abc" = 0 :=
  ⟨(queryLimit_onChange_spec "-3").2.2 (-3) (by decide) (by decide),
   (queryLimit_onChange_spec "").1 (by decide),
   (queryLimit_onChange_spec "abc").1 (by decide)⟩

/-- C10: `SingleEntryForm.handleGenerate` calls `onGenerate` exactly when the
trimmed activity is non-empty, the trimmed definition is non-empty and a file
is selected, checking in that order with at most one alert per invocation; a
successful call passes the current `activity`, `definition`, `file` and
`selectedModel` unchanged. -/
theorem single_form_guard (F : Type) (activity definition : String)
    (file : Option F) (model : String) :
    ((SingleEntryForm.handleGenerate F activity definition file model).2.isSome
        ↔ trimJS activity ≠ [] ∧ trimJS definition ≠ [] ∧ file.isSome)
  ∧ ((SingleEntryForm.handleGenerate F activity definition file model).1.length ≤ 1)
  ∧ (trimJS activity = [] →
      SingleEntryForm.handleGenerate F activity definition file model
        = (["Please enter an activity name"], none))
  ∧ (trimJS activity ≠ [] → trimJS definition = [] →
      SingleEntryForm.handleGenerate F activity definition file model
        = (["Please enter a definition"], none))
  ∧ (trimJS activity ≠ [] → trimJS definition ≠ [] → file = none →
      SingleEntryForm.handleGenerate F activity definition file model
        = (["Please upload a PDF file"], none))
  ∧ (∀ f, trimJS activity ≠ [] → trimJS definition ≠ [] → file = some f →
      SingleEntryForm.handleGenerate F activity definition file model
        = ([], some (activity, definition, f, model))) := by
  by_cases ha : trimJS activity = [] <;> by_cases hd : trimJS definition = [] <;>
    cases file <;> simp [SingleEntryForm.handleGenerate, ha, hd]

/-- Witness for C10: with non-blank activity and definition and a file
selected, the callback fires with the exact current state. -/
theorem single_form_guard_witness :
    SingleEntryForm.handleGenerate Nat "Irrigation" "Water supply works" (some 3) "gpt-4.5"
      = ([], some ("Irrigation", "Water supply works", 3, "gpt-4.5")) :=
  (single_form_guard Nat "Irrigation" "Water supply works" (some 3) "gpt-4.5").2.2.2.2.2
    3 (by decide) (by decide) rfl

end WBG
